import Mathlib

/-!
Shallow embedding of the role/permission authorization layer of the
CoffeShopManagerWebsite backend (src/types/role.ts, src/helpers/auth.ts,
src/middleware auth guards), together with proofs of the specification
claims about it.

TypeScript string-enum values coincide with their string representation,
so the `string | Role` union of the helpers is modelled by `String`
input that is parsed with the embedded `isValidRole` cast
(`roleOfString`), exactly as the source normalizes its arguments.
-/

namespace CoffeeShop

/-- The base roles (enum `Role` in src/types/role.ts). -/
inductive Role where
  | Admin
  | Employee
  | Accounting
  | WarehouseManager
  | EmployeeManager
  | Customer
  deriving DecidableEq, Fintype, Repr

/-- All possible permissions (enum `Permission` in src/types/role.ts). -/
inductive Permission where
  | MANAGE_ALL
  | VIEW_ALL_REPORTS
  | MANAGE_WAREHOUSE
  | MANAGE_INVENTORY
  | VIEW_WAREHOUSE_REPORTS
  | MANAGE_EMPLOYEES
  | VIEW_EMPLOYEES
  | MANAGE_SCHEDULES
  | VIEW_EMPLOYEE_RECORDS
  | VIEW_OWN_PROFILE
  | SUBMIT_REPORTS
  | VIEW_PRODUCTS
  | PLACE_ORDERS
  | MANAGE_SUPPLIERS
  | VIEW_SUPPLIERS
  deriving DecidableEq, Fintype, Repr

/-- Role structure (interface `RoleDefinition`): `extendFrom` is an
optional field in the source, hence `Option (List Role)`. -/
structure RoleDefinition where
  isManager : Bool
  extendFrom : Option (List Role) := none
  permissions : List Permission
  deriving DecidableEq, Repr

open Role Permission

/-- The role registry (`const RoleDefinitions` in src/types/role.ts). -/
def RoleDefinitions : Role → RoleDefinition
  | Admin =>
      { isManager := false
        permissions := [MANAGE_ALL] }
  | Accounting =>
      { isManager := true
        permissions := [VIEW_ALL_REPORTS, VIEW_EMPLOYEE_RECORDS,
          VIEW_WAREHOUSE_REPORTS, VIEW_SUPPLIERS] }
  | WarehouseManager =>
      { isManager := true
        permissions := [MANAGE_WAREHOUSE, MANAGE_INVENTORY,
          VIEW_WAREHOUSE_REPORTS, VIEW_ALL_REPORTS, MANAGE_SUPPLIERS,
          VIEW_SUPPLIERS] }
  | EmployeeManager =>
      { isManager := true
        extendFrom := some [Employee]
        permissions := [MANAGE_EMPLOYEES, MANAGE_SCHEDULES,
          VIEW_EMPLOYEE_RECORDS, VIEW_ALL_REPORTS] }
  | Employee =>
      { isManager := false
        extendFrom := some [Customer]
        permissions := [VIEW_OWN_PROFILE, SUBMIT_REPORTS, VIEW_SUPPLIERS] }
  | Customer =>
      { isManager := false
        permissions := [VIEW_PRODUCTS, PLACE_ORDERS] }

/-- The string value of each `Role` enum member. -/
def roleToString : Role → String
  | Admin => "Admin"
  | Employee => "Employee"
  | Accounting => "Accounting"
  | WarehouseManager => "WarehouseManager"
  | EmployeeManager => "EmployeeManager"
  | Customer => "Customer"

/-- `Object.values(Role)` in declaration order. -/
def roleValues : List String :=
  ["Admin", "Employee", "Accounting", "WarehouseManager",
    "EmployeeManager", "Customer"]

/-- Type guard `isValidRole` from src/types/role.ts: membership of the
string in `Object.values(Role)`. -/
def isValidRole (role : String) : Bool :=
  roleValues.contains role

/-- The normalization `isValidRole(userRole) ? (userRole as Role) : null`
performed at the top of every helper in src/helpers/auth.ts: a valid
string is cast to the corresponding enum member, anything else to null. -/
def roleOfString (s : String) : Option Role :=
  if s = "Admin" then some Admin
  else if s = "Employee" then some Employee
  else if s = "Accounting" then some Accounting
  else if s = "WarehouseManager" then some WarehouseManager
  else if s = "EmployeeManager" then some EmployeeManager
  else if s = "Customer" then some Customer
  else none

/-- Collect a list of optional results, failing when any element is
missing (used to thread the fuel-bounded recursion through
`extendFrom.map`). -/
def sequenceOption {α : Type} : List (Option α) → Option (List α)
  | [] => some []
  | none :: _ => none
  | some a :: rest => (sequenceOption rest).map (fun l => a :: l)

/-- Fuel-bounded embedding of the recursive `getAllPermissions` of
src/types/role.ts.  The source recursion carries no structural
termination argument (and no visited-set guard), so it is embedded with
explicit fuel: `none` means the recursion would still be running after
`fuel` unfoldings.  Each unfolding matches the source body:
`RoleDefinitions[role].permissions`, concatenated with the recursive
resolution of every role in `extendFrom` when that field is present. -/
def getAllPermissionsFuel : Nat → Role → Option (List Permission)
  | 0, _ => none
  | fuel + 1, role =>
      match (RoleDefinitions role).extendFrom with
      | none => some (RoleDefinitions role).permissions
      | some ext =>
          (sequenceOption (ext.map (getAllPermissionsFuel fuel))).map
            (fun inherited =>
              (RoleDefinitions role).permissions ++ inherited.flatten)

/-- Total `getAllPermissions` over the actual registry: fuel 3 covers
the deepest inheritance chain (EmployeeManager → Employee → Customer);
fuel-sufficiency and fuel-independence are proved below
(`getAllPermissionsFuel_stable`). -/
def getAllPermissions (role : Role) : List Permission :=
  (getAllPermissionsFuel 3 role).getD []

/-- `hasPermission` from src/helpers/auth.ts, after normalization of the
role claim to an enum member. -/
def hasPermissionR (userRoleEnum : Role) (requiredPermission : Permission) :
    Bool :=
  let roleDef := RoleDefinitions userRoleEnum
  if userRoleEnum = Role.Admin
      || roleDef.permissions.contains Permission.MANAGE_ALL then
    true
  else
    (getAllPermissions userRoleEnum).contains requiredPermission

/-- `hasPermission(userRole: string | Role, requiredPermission)`. -/
def hasPermission (userRole : String) (requiredPermission : Permission) :
    Bool :=
  match roleOfString userRole with
  | none => false
  | some userRoleEnum => hasPermissionR userRoleEnum requiredPermission

/-- `hasAllPermissions` after normalization: Admin short-circuits, any
other role checks every required permission with `hasPermission`. -/
def hasAllPermissionsR (userRoleEnum : Role)
    (requiredPermissions : List Permission) : Bool :=
  if userRoleEnum = Role.Admin then
    true
  else
    requiredPermissions.all (fun permission =>
      hasPermissionR userRoleEnum permission)

/-- `hasAllPermissions(userRole: string | Role, requiredPermissions)`. -/
def hasAllPermissions (userRole : String)
    (requiredPermissions : List Permission) : Bool :=
  match roleOfString userRole with
  | none => false
  | some userRoleEnum => hasAllPermissionsR userRoleEnum requiredPermissions

/-- `hasRequiredRole` after normalization of both arguments: Admin
bypasses, otherwise the required role's direct permission list is
checked with `hasAllPermissions`. -/
def hasRequiredRoleR (userRoleEnum requiredRoleEnum : Role) : Bool :=
  if userRoleEnum = Role.Admin then
    true
  else
    hasAllPermissionsR userRoleEnum
      (RoleDefinitions requiredRoleEnum).permissions

/-- `hasRequiredRole(userRole, requiredRole)`: either argument failing
normalization yields `false` before any other check. -/
def hasRequiredRole (userRole requiredRole : String) : Bool :=
  match roleOfString userRole, roleOfString requiredRole with
  | some userRoleEnum, some requiredRoleEnum =>
      hasRequiredRoleR userRoleEnum requiredRoleEnum
  | _, _ => false

/-- `compareManagerRoles` after normalization: Admin bypasses; if either
role's `isManager` flag is unset the answer is `false`; otherwise the
required role's direct permissions are checked with
`hasAllPermissions`. -/
def compareManagerRolesR (userRoleEnum requiredRoleEnum : Role) : Bool :=
  if userRoleEnum = Role.Admin then
    true
  else
    let userDef := RoleDefinitions userRoleEnum
    let requiredDef := RoleDefinitions requiredRoleEnum
    if !userDef.isManager || !requiredDef.isManager then
      false
    else
      hasAllPermissionsR userRoleEnum requiredDef.permissions

/-- `compareManagerRoles(userRole, requiredRole)`. -/
def compareManagerRoles (userRole requiredRole : String) : Bool :=
  match roleOfString userRole, roleOfString requiredRole with
  | some userRoleEnum, some requiredRoleEnum =>
      compareManagerRolesR userRoleEnum requiredRoleEnum
  | _, _ => false

/-- The gate predicate inside `requireManager` (src/middleware auth):
`RoleDefinitions[user.role as Role]?.isManager || user.role ===
Role.Admin`.  An unknown role string makes the optional-chained lookup
undefined, hence falsy. -/
def requireManagerAllows (role : String) : Bool :=
  (match roleOfString role with
   | some r => (RoleDefinitions r).isManager
   | none => false) || role == "Admin"

/-! ### Basic lemmas about role-string normalization -/

/-- Round trip: the string value of an enum member parses back to it. -/
theorem roleOfString_roleToString (r : Role) :
    roleOfString (roleToString r) = some r := by
  cases r <;> rfl

/-- Any string that parses to a role passes the `isValidRole` guard. -/
theorem isValidRole_of_roleOfString (s : String) (r : Role)
    (h : roleOfString s = some r) : isValidRole s = true := by
  unfold roleOfString at h
  split_ifs at h with h1 h2 h3 h4 h5 h6
  all_goals first
    | exact Option.noConfusion h
    | (subst_vars; decide)

/-- A string rejected by the `isValidRole` guard normalizes to null. -/
theorem roleOfString_eq_none_of_not_valid (s : String)
    (h : isValidRole s = false) : roleOfString s = none := by
  cases hr : roleOfString s with
  | none => rfl
  | some r =>
      rw [isValidRole_of_roleOfString s r hr] at h
      exact Bool.noConfusion h

/-! ### Fuel bounds for the recursive permission resolution -/

/-- A role with no `extendFrom` field resolves in one unfolding, for any
remaining fuel. -/
theorem getAllPermissionsFuel_of_extendFrom_none (n : Nat) (r : Role)
    (h : (RoleDefinitions r).extendFrom = none) :
    getAllPermissionsFuel (n + 1) r = some (RoleDefinitions r).permissions := by
  simp [getAllPermissionsFuel, h]

/-- `Customer` resolves with any positive fuel. -/
theorem getAllPermissionsFuel_customer (n : Nat) :
    getAllPermissionsFuel (n + 1) Customer =
      some [VIEW_PRODUCTS, PLACE_ORDERS] :=
  getAllPermissionsFuel_of_extendFrom_none n Customer rfl

/-- `Employee` (→ `Customer`) resolves with any fuel of at least two. -/
theorem getAllPermissionsFuel_employee (n : Nat) :
    getAllPermissionsFuel (n + 2) Employee =
      some [VIEW_OWN_PROFILE, SUBMIT_REPORTS, VIEW_SUPPLIERS,
        VIEW_PRODUCTS, PLACE_ORDERS] := by
  show getAllPermissionsFuel ((n + 1) + 1) Employee = _
  simp [getAllPermissionsFuel, RoleDefinitions, getAllPermissionsFuel_customer,
    sequenceOption]

/-- `EmployeeManager` (→ `Employee` → `Customer`) resolves with any fuel
of at least three. -/
theorem getAllPermissionsFuel_employeeManager (n : Nat) :
    getAllPermissionsFuel (n + 3) EmployeeManager =
      some [MANAGE_EMPLOYEES, MANAGE_SCHEDULES, VIEW_EMPLOYEE_RECORDS,
        VIEW_ALL_REPORTS, VIEW_OWN_PROFILE, SUBMIT_REPORTS, VIEW_SUPPLIERS,
        VIEW_PRODUCTS, PLACE_ORDERS] := by
  show getAllPermissionsFuel ((n + 2) + 1) EmployeeManager = _
  simp [getAllPermissionsFuel, RoleDefinitions, getAllPermissionsFuel_employee,
    sequenceOption]

/-! ### Specification claims -/

/-- Claim C1: for every role `R` of the registry, `getAllPermissions R`
equals, as a set, the union of `R`'s direct permissions and
`getAllPermissions P` for every `P` in `R`'s `extendFrom` list; in
particular it contains every direct permission and every permission of
each inherited role's resolved set. -/
theorem getAllPermissions_mem_iff :
    ∀ (r : Role) (p : Permission),
      (p ∈ getAllPermissions r ↔
        p ∈ (RoleDefinitions r).permissions ∨
          ∃ e ∈ (RoleDefinitions r).extendFrom.getD [],
            p ∈ getAllPermissions e) ∧
      (p ∈ (RoleDefinitions r).permissions → p ∈ getAllPermissions r) ∧
      (∀ e ∈ (RoleDefinitions r).extendFrom.getD [],
        p ∈ getAllPermissions e → p ∈ getAllPermissions r) := by
  decide

theorem getAllPermissions_mem_iff_witness :
    VIEW_PRODUCTS ∈ (RoleDefinitions Role.Customer).permissions ∧
    VIEW_PRODUCTS ∈ getAllPermissions Role.Customer ∧
    Role.Employee ∈ (RoleDefinitions Role.EmployeeManager).extendFrom.getD [] ∧
    PLACE_ORDERS ∈ getAllPermissions Role.Employee ∧
    PLACE_ORDERS ∈ getAllPermissions Role.EmployeeManager :=
  ⟨by decide,
    (getAllPermissions_mem_iff Role.Customer VIEW_PRODUCTS).2.1 (by decide),
    by decide, by decide,
    (getAllPermissions_mem_iff Role.EmployeeManager PLACE_ORDERS).2.2
      Role.Employee (by decide) (by decide)⟩

/-- Claim C2: with the actual registry, `getAllPermissions EmployeeManager`
is, as a set, exactly the nine permissions MANAGE_EMPLOYEES,
MANAGE_SCHEDULES, VIEW_EMPLOYEE_RECORDS, VIEW_ALL_REPORTS,
VIEW_OWN_PROFILE, SUBMIT_REPORTS, VIEW_SUPPLIERS, VIEW_PRODUCTS,
PLACE_ORDERS. -/
theorem getAllPermissions_employeeManager :
    ∀ p : Permission,
      p ∈ getAllPermissions Role.EmployeeManager ↔
        p = MANAGE_EMPLOYEES ∨ p = MANAGE_SCHEDULES ∨
        p = VIEW_EMPLOYEE_RECORDS ∨ p = VIEW_ALL_REPORTS ∨
        p = VIEW_OWN_PROFILE ∨ p = SUBMIT_REPORTS ∨ p = VIEW_SUPPLIERS ∨
        p = VIEW_PRODUCTS ∨ p = PLACE_ORDERS := by
  decide

/-- Claim C3: `hasPermission "Admin" p` is `true` for every permission
`p`, including permissions outside Admin's direct list: the Admin role
claim satisfies every permission check unconditionally. -/
theorem hasPermission_admin :
    ∀ p : Permission, hasPermission "Admin" p = true := by
  decide

/-- Claim C4: the decision functions are total over arbitrary string
role-claim input (they are Lean functions into `Bool`, so they always
return a boolean), and every string rejected by `isValidRole` — the
empty string included — is denied by all of them, for every permission
and required-role argument. -/
theorem decision_functions_invalid_role (s : String)
    (h : isValidRole s = false) :
    (∀ p : Permission, hasPermission s p = false) ∧
    (∀ ps : List Permission, hasAllPermissions s ps = false) ∧
    (∀ t : String, hasRequiredRole s t = false) ∧
    requireManagerAllows s = false := by
  have hn := roleOfString_eq_none_of_not_valid s h
  have hA : s ≠ "Admin" := by
    intro he
    subst he
    exact absurd h (by decide)
  refine ⟨?_, ?_, ?_, ?_⟩
  · intro p
    simp [hasPermission, hn]
  · intro ps
    simp [hasAllPermissions, hn]
  · intro t
    simp [hasRequiredRole, hn]
  · simp [requireManagerAllows, hn, beq_eq_false_iff_ne, hA]

theorem decision_functions_invalid_role_witness :
    isValidRole "" = false ∧
    hasPermission "" MANAGE_ALL = false ∧
    hasAllPermissions "" [] = false ∧
    hasRequiredRole "" "Admin" = false ∧
    requireManagerAllows "" = false := by
  refine ⟨by decide, ?_, ?_, ?_, ?_⟩
  all_goals
    obtain ⟨h1, h2, h3, h4⟩ := decision_functions_invalid_role "" (by decide)
  · exact h1 MANAGE_ALL
  · exact h2 []
  · exact h3 "Admin"
  · exact h4

/-- Claim C5: `hasRequiredRole` is `true` for an Admin caller
unconditionally, and for every other valid caller it equals
`hasAllPermissions` applied to the required role's direct permission
list (not its inherited closure); concretely,
`hasRequiredRole "Customer" Employee = false` and
`hasRequiredRole "Employee" Customer = true`. -/
theorem hasRequiredRole_spec :
    (∀ u req : Role,
        hasRequiredRole (roleToString u) (roleToString req) =
          (u == Role.Admin
            || hasAllPermissions (roleToString u)
                (RoleDefinitions req).permissions)) ∧
    hasRequiredRole "Customer" (roleToString Role.Employee) = false ∧
    hasRequiredRole "Employee" (roleToString Role.Customer) = true := by
  decide

/-- Claim C6: `hasAllPermissions claim required` is `true` iff every
element of `required` individually satisfies `hasPermission claim`; an
empty `required` list yields `true` for every valid role, and the Admin
role claim yields `true` for every list. -/
theorem hasAllPermissions_spec :
    (∀ (r : Role) (ps : List Permission),
        hasAllPermissions (roleToString r) ps =
          ps.all (fun p => hasPermission (roleToString r) p)) ∧
    (∀ r : Role, hasAllPermissions (roleToString r) [] = true) ∧
    (∀ ps : List Permission, hasAllPermissions "Admin" ps = true) := by
  refine ⟨?_, ?_, ?_⟩
  · intro r ps
    simp only [hasAllPermissions, hasPermission, roleOfString_roleToString]
    by_cases hr : r = Role.Admin
    · subst hr
      simp [hasAllPermissionsR, hasPermissionR]
    · simp [hasAllPermissionsR, hr]
  · intro r
    by_cases hr : r = Role.Admin <;>
      simp [hasAllPermissions, roleOfString_roleToString, hasAllPermissionsR,
        hr]
  · intro ps
    simp [hasAllPermissions, roleOfString, hasAllPermissionsR]

/-- Claim C7: the manager gate of `requireManager` passes exactly when
the resolved role's `isManager` flag is set or the role is Admin;
concretely it passes for "WarehouseManager", fails for "Employee", and
passes for "Admin" even though Admin's declared `isManager` flag is
`false`. -/
theorem requireManager_spec :
    (∀ r : Role,
        requireManagerAllows (roleToString r) =
          ((RoleDefinitions r).isManager || r == Role.Admin)) ∧
    requireManagerAllows "WarehouseManager" = true ∧
    requireManagerAllows "Employee" = false ∧
    requireManagerAllows "Admin" = true ∧
    (RoleDefinitions Role.Admin).isManager = false := by
  decide

/-- Claim C8: permission resolution terminates on every role of the
actual (acyclic) registry, the depth-3 chain EmployeeManager → Employee
→ Customer included: with any fuel of at least three the fuel-bounded
recursion returns a result — never the out-of-fuel marker — and that
result is independent of the fuel. -/
theorem getAllPermissions_terminates (role : Role) (fuel : Nat)
    (h : 3 ≤ fuel) :
    getAllPermissionsFuel fuel role = some (getAllPermissions role) := by
  obtain ⟨k, rfl⟩ : ∃ k, fuel = k + 3 := ⟨fuel - 3, by omega⟩
  cases role
  case Admin =>
    exact (getAllPermissionsFuel_of_extendFrom_none (k + 2) Admin rfl).trans rfl
  case Accounting =>
    exact
      (getAllPermissionsFuel_of_extendFrom_none (k + 2) Accounting rfl).trans
        rfl
  case WarehouseManager =>
    exact
      (getAllPermissionsFuel_of_extendFrom_none (k + 2) WarehouseManager
        rfl).trans rfl
  case Customer =>
    exact
      (getAllPermissionsFuel_of_extendFrom_none (k + 2) Customer rfl).trans rfl
  case Employee =>
    exact (getAllPermissionsFuel_employee (k + 1)).trans rfl
  case EmployeeManager =>
    exact (getAllPermissionsFuel_employeeManager k).trans rfl

theorem getAllPermissions_terminates_witness :
    3 ≤ 4 ∧
    getAllPermissionsFuel 4 Role.EmployeeManager =
      some (getAllPermissions Role.EmployeeManager) :=
  ⟨by decide, getAllPermissions_terminates Role.EmployeeManager 4 (by decide)⟩

/-- Claim C9: the Admin gate is exclusive: every valid role other than
Admin fails `hasRequiredRole · "Admin"` — because MANAGE_ALL, Admin's
only direct permission, is in no other role's resolved permission set —
and every invalid role string fails it too. -/
theorem hasRequiredRole_admin_exclusive :
    (∀ r : Role, r ≠ Role.Admin →
        hasRequiredRole (roleToString r) "Admin" = false ∧
        MANAGE_ALL ∉ getAllPermissions r) ∧
    (∀ s : String, isValidRole s = false →
        hasRequiredRole s "Admin" = false) := by
  constructor
  · decide
  · intro s h
    simp [hasRequiredRole, roleOfString_eq_none_of_not_valid s h]

theorem hasRequiredRole_admin_exclusive_witness :
    (Role.EmployeeManager ≠ Role.Admin ∧
      hasRequiredRole (roleToString Role.EmployeeManager) "Admin" = false ∧
      MANAGE_ALL ∉ getAllPermissions Role.EmployeeManager) ∧
    (isValidRole "" = false ∧ hasRequiredRole "" "Admin" = false) :=
  ⟨⟨by decide,
      hasRequiredRole_admin_exclusive.1 Role.EmployeeManager (by decide)⟩,
    ⟨by decide, hasRequiredRole_admin_exclusive.2 "" (by decide)⟩⟩

/-- Claim C10: `compareManagerRoles` is `true` unconditionally for an
Admin caller (against any valid required role); for every other pair of
valid roles it is `false` whenever either role's `isManager` flag is
unset, regardless of permission coverage, and when both flags are set it
reduces to `hasAllPermissions` on the required role's direct
permissions. -/
theorem compareManagerRoles_spec :
    (∀ req : Role,
        compareManagerRoles "Admin" (roleToString req) = true) ∧
    (∀ u req : Role, u ≠ Role.Admin →
        ((RoleDefinitions u).isManager = false ∨
          (RoleDefinitions req).isManager = false) →
        compareManagerRoles (roleToString u) (roleToString req) = false) ∧
    (∀ u req : Role, u ≠ Role.Admin →
        (RoleDefinitions u).isManager = true →
        (RoleDefinitions req).isManager = true →
        compareManagerRoles (roleToString u) (roleToString req) =
          hasAllPermissions (roleToString u)
            (RoleDefinitions req).permissions) := by
  refine ⟨?_, ?_, ?_⟩ <;> decide

theorem compareManagerRoles_spec_witness :
    (Role.Employee ≠ Role.Admin ∧
      ((RoleDefinitions Role.Employee).isManager = false ∨
        (RoleDefinitions Role.Accounting).isManager = false) ∧
      compareManagerRoles (roleToString Role.Employee)
        (roleToString Role.Accounting) = false) ∧
    (Role.Accounting ≠ Role.Admin ∧
      (RoleDefinitions Role.Accounting).isManager = true ∧
      (RoleDefinitions Role.WarehouseManager).isManager = true ∧
      compareManagerRoles (roleToString Role.Accounting)
        (roleToString Role.WarehouseManager) =
        hasAllPermissions (roleToString Role.Accounting)
          (RoleDefinitions Role.WarehouseManager).permissions) :=
  ⟨⟨by decide, by decide,
      compareManagerRoles_spec.2.1 Role.Employee Role.Accounting (by decide)
        (by decide)⟩,
    ⟨by decide, by decide, by decide,
      compareManagerRoles_spec.2.2 Role.Accounting Role.WarehouseManager
        (by decide) (by decide) (by decide)⟩⟩

end CoffeeShop
